import Mathlib

/-!
Shallow embedding of the knowledge-graph construction and query engine of
`app/services/graphrag_service.py` (class `GraphRAGService`), together with
proofs about the spec's claims on it.

Modelling conventions:
  - Python strings are Lean `String`; `s.lower()` is `String.toLower`,
    `s.strip()` is `String.trim`, and the Python substring test `a in b`
    is `strIn a b` (list-infix on the character lists).
  - Python floats (confidence values) are modelled as `Rat`; the only
    operations the code performs on them are `max` and equality.
  - The NetworkX `DiGraph` is modelled as an insertion-ordered association
    list of nodes plus an insertion-ordered list of directed edges with
    unique ordered endpoint pairs; `add_node` upserts (attribute overwrite,
    position preserved), `add_edge` upserts an edge.  The only call site of
    `add_edge` (in `_add_to_networkx_graph`) guards both endpoints with
    `has_node`, so NetworkX's implicit creation of missing endpoint nodes
    is unreachable and is not modelled.
  - `nx.shortest_path` on an unweighted digraph is modelled as breadth-first
    search (`shortest_path` below), returning `none` for `NetworkXNoPath`.
  - The remote/local extraction pipeline performs network calls; the query
    engine receives its outcome as an explicit `Except Unit (List Entity)`
    argument, whose `error` case stands for any exception raised inside the
    `try` block of `query_knowledge_graph`.
-/

namespace GraphRAGService

/-- Python `str.lower()` (ASCII case mapping, the case the program's entity
texts exercise), written on the character list so it evaluates by `decide`. -/
def pyLower (s : String) : String :=
  String.mk (s.data.map Char.toLower)

/-- Python `str.strip()`: remove leading and trailing whitespace. -/
def pyStrip (s : String) : String :=
  String.mk (((s.data.dropWhile Char.isWhitespace).reverse.dropWhile Char.isWhitespace).reverse)

/-- Python substring test `needle in hay`. -/
def strIn (needle hay : String) : Bool :=
  decide (List.IsInfix needle.data hay.data)

/-- An extracted entity dict: `{"text", "label", "confidence", "source"}`
(the fields read and written by `_deduplicate_entities`; the local extractor
additionally records character offsets, which no deduplication or graph code
ever reads). -/
structure Entity where
  text : String
  label : String
  confidence : Rat
  source : String
deriving DecidableEq, Repr

/-- `key = entity["text"].lower().strip()` in `_deduplicate_entities`. -/
def entKey (e : Entity) : String := pyStrip (pyLower e.text)

/-- The collision branch of `_deduplicate_entities`: confidence becomes the
max, and the label is overwritten exactly when the incoming source is
`"openai"`. -/
def mergeEntity (existing incoming : Entity) : Entity :=
  { existing with
      confidence := max existing.confidence incoming.confidence
      label := if incoming.source = "openai" then incoming.label else existing.label }

/-- One loop iteration of `_deduplicate_entities` on the `entity_map` dict,
modelled on an insertion-ordered association list with unique keys (Python
dicts preserve insertion order; an update keeps the entry's position). -/
def upsertEntity : List (String × Entity) → Entity → List (String × Entity)
  | [], e => [(entKey e, e)]
  | p :: rest, e =>
      if p.1 = entKey e then (p.1, mergeEntity p.2 e) :: rest
      else p :: upsertEntity rest e

/-- `GraphRAGService._deduplicate_entities`. -/
def deduplicate_entities (es : List Entity) : List Entity :=
  (es.foldl upsertEntity []).map Prod.snd

/-- An extracted relationship dict: `{"source", "target", "relationship",
"confidence"}` plus the optional `"context"` sentence (absent on
language-model extracted relationships). -/
structure Relationship where
  source : String
  target : String
  relationship : String
  confidence : Rat
  context : Option String
deriving DecidableEq, Repr

/-- `key = (rel["source"].lower(), rel["target"].lower(), rel["relationship"])`
in `_deduplicate_relationships`: source and target are lower-cased (not
trimmed), the relationship type is taken verbatim. -/
def relKey (r : Relationship) : String × String × String :=
  (pyLower r.source, pyLower r.target, r.relationship)

/-- The loop of `_deduplicate_relationships`: first occurrence of each key
wins, later ones are dropped. -/
def dedupRelsAux : List Relationship → List (String × String × String) → List Relationship
  | [], _ => []
  | r :: rest, seen =>
      if relKey r ∈ seen then dedupRelsAux rest seen
      else r :: dedupRelsAux rest (relKey r :: seen)

/-- `GraphRAGService._deduplicate_relationships`. -/
def deduplicate_relationships (rs : List Relationship) : List Relationship :=
  dedupRelsAux rs []

/-- Node attributes set by `self.graph.add_node(...)` in
`_add_to_networkx_graph`. -/
structure NodeAttrs where
  label : String
  type : String
  confidence : Rat
  recording_id : Int
deriving DecidableEq, Repr

/-- Edge attributes set by `self.graph.add_edge(...)` in
`_add_to_networkx_graph`. -/
structure EdgeAttrs where
  relationship : String
  confidence : Rat
  recording_id : Int
deriving DecidableEq, Repr

/-- The NetworkX `DiGraph` store `self.graph`: insertion-ordered node
association list with unique ids, and insertion-ordered directed edges with
unique ordered endpoint pairs. -/
structure DiGraph where
  nodes : List (String × NodeAttrs)
  edges : List (String × String × EdgeAttrs)
deriving DecidableEq, Repr

/-- `self.graph.has_node(id)`. -/
def has_node (g : DiGraph) (id : String) : Bool :=
  g.nodes.any (fun p => p.1 = id)

/-- `self.graph.has_edge(u, v)`. -/
def has_edge (g : DiGraph) (u v : String) : Bool :=
  g.edges.any (fun e => e.1 = u ∧ e.2.1 = v)

/-- `self.graph.add_node(id, **attrs)`: attribute overwrite when the node
exists (position preserved), append otherwise. -/
def add_node (g : DiGraph) (id : String) (a : NodeAttrs) : DiGraph :=
  if has_node g id then
    { g with nodes := g.nodes.map (fun p => if p.1 = id then (id, a) else p) }
  else
    { g with nodes := g.nodes ++ [(id, a)] }

/-- `self.graph.add_edge(u, v, **attrs)`: attribute overwrite when the edge
exists, append otherwise.  Its only call site guards both endpoints with
`has_node`, so NetworkX's implicit creation of missing endpoints never fires
and is not modelled. -/
def add_edge (g : DiGraph) (u v : String) (a : EdgeAttrs) : DiGraph :=
  if has_edge g u v then
    { g with edges := g.edges.map (fun e => if e.1 = u ∧ e.2.1 = v then (u, v, a) else e) }
  else
    { g with edges := g.edges ++ [(u, v, a)] }

/-- A node of a graph fragment as built by `_build_graph_structure`
(`full_text` is present only on key-point nodes). -/
structure FragNode where
  id : String
  label : String
  type : String
  confidence : Rat
  recording_id : Int
  full_text : Option String
deriving DecidableEq, Repr

/-- An edge of a graph fragment as built by `_build_graph_structure`. -/
structure FragEdge where
  source : String
  target : String
  relationship : String
  confidence : Rat
  recording_id : Int
deriving DecidableEq, Repr

/-- A per-recording fragment (`graph_data`). -/
structure GraphData where
  nodes : List FragNode
  edges : List FragEdge
  recording_id : Int
deriving DecidableEq, Repr

/-- The node loop of `_add_to_networkx_graph`: every fragment node is
upserted, with the `recording_id` parameter as its recording attribute. -/
def addFragmentNodes (g : DiGraph) (rid : Int) (ns : List FragNode) : DiGraph :=
  ns.foldl (fun acc n => add_node acc n.id ⟨n.label, n.type, n.confidence, rid⟩) g

/-- One iteration of the edge loop of `_add_to_networkx_graph`: the edge is
inserted only when both endpoints already exist as store nodes, and is
silently dropped otherwise. -/
def insertFragmentEdge (rid : Int) (acc : DiGraph) (e : FragEdge) : DiGraph :=
  if has_node acc e.source && has_node acc e.target then
    add_edge acc e.source e.target ⟨e.relationship, e.confidence, rid⟩
  else acc

/-- `GraphRAGService._add_to_networkx_graph`: upsert all fragment nodes,
then insert each fragment edge only if both endpoints exist as store nodes. -/
def _add_to_networkx_graph (g : DiGraph) (rid : Int) (gd : GraphData) : DiGraph :=
  gd.edges.foldl (insertFragmentEdge rid) (addFragmentNodes g rid gd.nodes)

/-- Successors of `u` in edge insertion order. -/
def successors (g : DiGraph) (u : String) : List String :=
  g.edges.filterMap (fun e => if e.1 = u then some e.2.1 else none)

/-- One breadth-first expansion of a (reversed) path by unvisited successors
of its head. -/
def expandPath (g : DiGraph) (visited : List String) (p : List String) : List (List String) :=
  match p with
  | [] => []
  | u :: _ =>
      (successors g u).filterMap
        (fun v => if visited.contains v then none else some (v :: p))

/-- Fuelled breadth-first search over directed edges; frontier elements are
reversed paths. -/
def bfs (g : DiGraph) (target : String) : Nat → List (List String) → List String → Option (List String)
  | 0, _, _ => none
  | fuel + 1, frontier, visited =>
      if frontier.isEmpty then none
      else
        match frontier.find? (fun p => p.head? = some target) with
        | some p => some p.reverse
        | none =>
            let visited2 := visited ++ frontier.filterMap List.head?
            bfs g target fuel (frontier.flatMap (expandPath g visited2)) visited2

/-- `nx.shortest_path(self.graph, a, b)` on the unweighted digraph:
breadth-first search; `none` models `NetworkXNoPath`. -/
def shortest_path (g : DiGraph) (src dst : String) : Option (List String) :=
  if has_node g src && has_node g dst then
    bfs g dst (g.nodes.length + 1) [[src]] [src]
  else none

/-- A matched-node record appended to `relevant_nodes` in
`query_knowledge_graph`. -/
structure RelNode where
  id : String
  label : String
  type : String
  confidence : Rat
deriving DecidableEq, Repr

/-- A related-concept record built by `_get_related_concepts`. -/
structure Concept where
  concept : String
  type : String
  connection : String
deriving DecidableEq, Repr

/-- `{"total_nodes", "total_edges"}` of the query result. -/
structure GraphStats where
  total_nodes : Nat
  total_edges : Nat
deriving DecidableEq, Repr

/-- The dict returned by `query_knowledge_graph`; `graph_stats = none`
models the exception-path dict, which carries no `"graph_stats"` key. -/
structure QueryResult where
  relevant_nodes : List RelNode
  paths : List (List String)
  related_concepts : List Concept
  graph_stats : Option GraphStats
deriving DecidableEq, Repr

/-- The scoping test of the node scan: the node is skipped exactly when
`recording_id and node_data.get("recording_id") != recording_id` holds in
Python — `none` and the integer `0` are falsy, disabling the filter. -/
def scopeKeep (rid : Option Int) (nodeRid : Int) : Bool :=
  match rid with
  | none => true
  | some i => if i = 0 then true else nodeRid = i

/-- The label-match test of the node scan: some query term is a substring of
the lower-cased label, or the lower-cased label is a substring of some term. -/
def matchesQuery (terms : List String) (label : String) : Bool :=
  terms.any (fun t => strIn t (pyLower label)) || terms.any (fun t => strIn (pyLower label) t)

/-- The full (uncapped) `relevant_nodes` list produced by the node scan of
`query_knowledge_graph`, in store scan order. -/
def relevant_nodes_full (g : DiGraph) (rid : Option Int) (terms : List String) : List RelNode :=
  g.nodes.filterMap
    (fun p =>
      if scopeKeep rid p.2.recording_id then
        if matchesQuery terms p.2.label then
          some ⟨p.1, p.2.label, p.2.type, p.2.confidence⟩
        else none
      else none)

/-- All ordered pairs `(l[i], l[j])` with `i < j`, in the `i`-major order of
the nested loops of `query_knowledge_graph`. -/
def orderedPairs : List α → List (α × α)
  | [] => []
  | x :: xs => xs.map (fun y => (x, y)) ++ orderedPairs xs

/-- The path-finding loop of `query_knowledge_graph`: every unordered pair
among the (uncapped) matched nodes, with `NetworkXNoPath` silently skipped. -/
def find_paths (g : DiGraph) (rns : List RelNode) : List (List String) :=
  if rns.length > 1 then
    (orderedPairs rns).filterMap (fun pq => shortest_path g pq.1.id pq.2.id)
  else []

/-- `GraphRAGService._get_related_concepts`: nodes directly connected (in
either direction) to a query term that is itself a node id. -/
def _get_related_concepts (g : DiGraph) (terms : List String) : List Concept :=
  g.nodes.filterMap
    (fun p =>
      if terms.any (fun t => has_node g t && (has_edge g t p.1 || has_edge g p.1 t)) then
        some ⟨p.2.label, p.2.type, "direct"⟩
      else none)

/-- `GraphRAGService.query_knowledge_graph`.  The first argument is the
outcome of the query-entity extraction (the only suspension point inside the
`try` block); `Except.error` stands for any exception raised there, which the
`except` clause converts into the empty-shaped dict without `graph_stats`. -/
def query_knowledge_graph (extracted : Except Unit (List Entity)) (g : DiGraph)
    (rid : Option Int) : QueryResult :=
  match extracted with
  | .error _ => ⟨[], [], [], none⟩
  | .ok query_entities =>
      let query_terms := query_entities.map (fun e => pyLower e.text)
      let rns := relevant_nodes_full g rid query_terms
      let paths := find_paths g rns
      let related := _get_related_concepts g query_terms
      ⟨rns.take 10, paths.take 5, related.take 10,
        some ⟨g.nodes.length, g.edges.length⟩⟩

/-- The dict returned by `get_graph_summary`; the type histograms are in
first-occurrence order (Python `Counter` over the scan). -/
structure SummaryResult where
  total_entities : Nat
  total_relationships : Nat
  entity_types : List (String × Nat)
  relationship_types : List (String × Nat)
  recordings_covered : Nat
deriving DecidableEq, Repr

/-- One `Counter` increment on an insertion-ordered histogram. -/
def bumpCount : List (String × Nat) → String → List (String × Nat)
  | [], s => [(s, 1)]
  | p :: rest, s => if p.1 = s then (p.1, p.2 + 1) :: rest else p :: bumpCount rest s

/-- `Counter(labels)` as an insertion-ordered histogram. -/
def countBy (l : List String) : List (String × Nat) :=
  l.foldl bumpCount []

/-- The node list of `get_graph_summary`: filtered to the recording when the
`recording_id` argument is truthy, the whole store otherwise. -/
def scopedNodes (g : DiGraph) (rid : Option Int) : List (String × NodeAttrs) :=
  match rid with
  | none => g.nodes
  | some i => if i = 0 then g.nodes else g.nodes.filter (fun p => p.2.recording_id = i)

/-- The edge list of `get_graph_summary`, scoped like `scopedNodes`. -/
def scopedEdges (g : DiGraph) (rid : Option Int) : List (String × String × EdgeAttrs) :=
  match rid with
  | none => g.edges
  | some i => if i = 0 then g.edges else g.edges.filter (fun e => e.2.2.recording_id = i)

/-- `GraphRAGService.get_graph_summary`.  `recordings_covered` is
`len(set(d.get("recording_id") for n, d in nodes if d.get("recording_id")))`:
the number of distinct recording ids among the scoped nodes whose recording
id is truthy (nonzero). -/
def get_graph_summary (g : DiGraph) (rid : Option Int) : SummaryResult :=
  let nodes := scopedNodes g rid
  let edges := scopedEdges g rid
  { total_entities := nodes.length
    total_relationships := edges.length
    entity_types := countBy (nodes.map (fun p => p.2.type))
    relationship_types := countBy (edges.map (fun e => e.2.2.relationship))
    recordings_covered :=
      ((nodes.filterMap
          (fun p => if p.2.recording_id = 0 then none else some p.2.recording_id)).dedup).length }

/-! ### Helper lemmas on the deduplicators -/

theorem entKey_mergeEntity (a b : Entity) : entKey (mergeEntity a b) = entKey a := rfl

theorem upsertEntity_key_inv (e : Entity) :
    ∀ m : List (String × Entity), (∀ p ∈ m, p.1 = entKey p.2) →
      ∀ p ∈ upsertEntity m e, p.1 = entKey p.2 := by
  intro m
  induction m with
  | nil =>
      intro _ p hp
      simp only [upsertEntity, List.mem_singleton] at hp
      subst hp; rfl
  | cons q rest ih =>
      intro hm p hp
      by_cases h : q.1 = entKey e
      · simp only [upsertEntity, if_pos h, List.mem_cons] at hp
        rcases hp with hp | hp
        · subst hp
          simpa [entKey_mergeEntity] using hm q (by simp)
        · exact hm p (by simp [hp])
      · simp only [upsertEntity, if_neg h, List.mem_cons] at hp
        rcases hp with hp | hp
        · subst hp; exact hm p (by simp)
        · exact ih (fun p hp => hm p (by simp [hp])) p hp

theorem upsertEntity_map_fst (e : Entity) :
    ∀ m : List (String × Entity),
      (upsertEntity m e).map Prod.fst =
        if entKey e ∈ m.map Prod.fst then m.map Prod.fst else m.map Prod.fst ++ [entKey e] := by
  intro m
  induction m with
  | nil => simp [upsertEntity]
  | cons q rest ih =>
      by_cases h : q.1 = entKey e
      · simp [upsertEntity, if_pos h, h.symm]
      · simp only [upsertEntity, if_neg h, List.map_cons, ih, List.mem_cons]
        have h2 : ¬entKey e = q.1 := fun hc => h hc.symm
        by_cases hmem : entKey e ∈ rest.map Prod.fst
        · simp [hmem, h2]
        · simp [hmem, h2]

theorem upsertEntity_nodup (e : Entity) (m : List (String × Entity))
    (h : (m.map Prod.fst).Nodup) : ((upsertEntity m e).map Prod.fst).Nodup := by
  rw [upsertEntity_map_fst]
  by_cases hmem : entKey e ∈ m.map Prod.fst
  · simpa [hmem] using h
  · simp only [if_neg hmem]
    simp [List.nodup_append, h, hmem]

theorem upsertEntity_fresh (e : Entity) :
    ∀ m : List (String × Entity), (∀ p ∈ m, p.1 ≠ entKey e) →
      upsertEntity m e = m ++ [(entKey e, e)] := by
  intro m
  induction m with
  | nil => simp [upsertEntity]
  | cons q rest ih =>
      intro h
      have hq : q.1 ≠ entKey e := h q (by simp)
      simp only [upsertEntity, if_neg hq, List.cons_append, List.cons.injEq, true_and]
      exact ih (fun p hp => h p (by simp [hp]))

theorem foldl_upsert_key_inv (es : List Entity) :
    ∀ m : List (String × Entity), (∀ p ∈ m, p.1 = entKey p.2) →
      ∀ p ∈ es.foldl upsertEntity m, p.1 = entKey p.2 := by
  induction es with
  | nil => intro m hm; simpa using hm
  | cons e rest ih =>
      intro m hm
      exact ih (upsertEntity m e) (upsertEntity_key_inv e m hm)

theorem foldl_upsert_nodup (es : List Entity) :
    ∀ m : List (String × Entity), ((m.map Prod.fst)).Nodup →
      ((es.foldl upsertEntity m).map Prod.fst).Nodup := by
  induction es with
  | nil => intro m hm; simpa using hm
  | cons e rest ih =>
      intro m hm
      exact ih (upsertEntity m e) (upsertEntity_nodup e m hm)

theorem foldl_upsert_all_fresh (es : List Entity) :
    ∀ m : List (String × Entity), (es.map entKey).Nodup →
      (∀ p ∈ m, ∀ e ∈ es, p.1 ≠ entKey e) →
      es.foldl upsertEntity m = m ++ es.map (fun e => (entKey e, e)) := by
  induction es with
  | nil => intro m _ _; simp
  | cons e rest ih =>
      intro m hnd hfresh
      have hstep : upsertEntity m e = m ++ [(entKey e, e)] :=
        upsertEntity_fresh e m (fun p hp => hfresh p hp e (by simp))
      rw [List.foldl_cons, hstep,
        ih (m ++ [(entKey e, e)]) (by simpa using hnd.of_cons) ?_]
      · simp
      · intro p hp e2 he2
        rcases List.mem_append.mp hp with hp | hp
        · exact hfresh p hp e2 (by simp [he2])
        · simp only [List.mem_singleton] at hp
          subst hp
          intro hc
          have : entKey e ∉ rest.map entKey := by
            have := hnd
            simp only [List.map_cons, List.nodup_cons] at this
            exact this.1
          have hc2 : entKey e = entKey e2 := hc
          refine this ?_
          rw [hc2]
          exact List.mem_map_of_mem entKey he2

/-! ### Helper lemmas on the graph store -/

/-- The invariant claimed of the store: every edge references only ids that
exist as store nodes. -/
def edgesValid (g : DiGraph) : Prop :=
  ∀ e ∈ g.edges, has_node g e.1 = true ∧ has_node g e.2.1 = true

theorem add_node_edges (g : DiGraph) (id : String) (a : NodeAttrs) :
    (add_node g id a).edges = g.edges := by
  unfold add_node; split <;> rfl

theorem add_edge_nodes (g : DiGraph) (u v : String) (a : EdgeAttrs) :
    (add_edge g u v a).nodes = g.nodes := by
  unfold add_edge; split <;> rfl

theorem addFragmentNodes_edges (rid : Int) (ns : List FragNode) :
    ∀ g : DiGraph, (addFragmentNodes g rid ns).edges = g.edges := by
  induction ns with
  | nil => intro g; rfl
  | cons n rest ih =>
      intro g
      show (addFragmentNodes (add_node g n.id ⟨n.label, n.type, n.confidence, rid⟩) rid rest).edges = g.edges
      rw [ih, add_node_edges]

theorem has_node_add_node (g : DiGraph) (id : String) (a : NodeAttrs) (x : String)
    (h : has_node g x = true) : has_node (add_node g id a) x = true := by
  unfold add_node
  split
  · unfold has_node at h ⊢
    simp only [List.any_map, List.any_eq_true, Function.comp, decide_eq_true_eq] at h ⊢
    obtain ⟨p, hp, hpx⟩ := h
    refine ⟨p, hp, ?_⟩
    by_cases hc : p.1 = id
    · rw [if_pos hc]
      exact hc ▸ hpx
    · rw [if_neg hc]
      exact hpx
  · unfold has_node at h ⊢
    simp only [List.any_append, h, Bool.true_or]

theorem has_node_addFragmentNodes (rid : Int) (ns : List FragNode) (x : String) :
    ∀ g : DiGraph, has_node g x = true →
      has_node (addFragmentNodes g rid ns) x = true := by
  induction ns with
  | nil => intro g h; exact h
  | cons n rest ih =>
      intro g h
      exact ih (add_node g n.id ⟨n.label, n.type, n.confidence, rid⟩)
        (has_node_add_node g n.id _ x h)

theorem has_node_add_edge (g : DiGraph) (u v : String) (a : EdgeAttrs) (x : String) :
    has_node (add_edge g u v a) x = has_node g x := by
  unfold has_node
  rw [add_edge_nodes]

theorem edgesValid_add_node (g : DiGraph) (id : String) (a : NodeAttrs)
    (h : edgesValid g) : edgesValid (add_node g id a) := by
  intro e he
  rw [add_node_edges] at he
  obtain ⟨h1, h2⟩ := h e he
  exact ⟨has_node_add_node g id a _ h1, has_node_add_node g id a _ h2⟩

theorem edgesValid_addFragmentNodes (rid : Int) (ns : List FragNode) :
    ∀ g : DiGraph, edgesValid g → edgesValid (addFragmentNodes g rid ns) := by
  induction ns with
  | nil => intro g h; exact h
  | cons n rest ih =>
      intro g h
      exact ih (add_node g n.id ⟨n.label, n.type, n.confidence, rid⟩)
        (edgesValid_add_node g n.id _ h)

theorem edgesValid_add_edge (g : DiGraph) (u v : String) (a : EdgeAttrs)
    (h : edgesValid g) (hu : has_node g u = true) (hv : has_node g v = true) :
    edgesValid (add_edge g u v a) := by
  intro e he
  simp only [has_node_add_edge]
  unfold add_edge at he
  split at he
  · rw [List.mem_map] at he
    obtain ⟨e2, he2, heq⟩ := he
    by_cases hc : e2.1 = u ∧ e2.2.1 = v
    · rw [if_pos hc] at heq
      subst heq
      exact ⟨hu, hv⟩
    · rw [if_neg hc] at heq
      subst heq
      exact h e2 he2
  · rw [List.mem_append] at he
    rcases he with he | he
    · exact h e he
    · simp only [List.mem_singleton] at he
      subst he
      exact ⟨hu, hv⟩

theorem edgesValid_insertFragmentEdge (rid : Int) (acc : DiGraph) (e : FragEdge)
    (h : edgesValid acc) : edgesValid (insertFragmentEdge rid acc e) := by
  unfold insertFragmentEdge
  split
  · next hc =>
      rw [Bool.and_eq_true] at hc
      exact edgesValid_add_edge acc e.source e.target _ h hc.1 hc.2
  · exact h

theorem edgesValid_edgeFold (rid : Int) (es : List FragEdge) :
    ∀ acc : DiGraph, edgesValid acc →
      edgesValid (es.foldl (insertFragmentEdge rid) acc) := by
  induction es with
  | nil => intro acc h; exact h
  | cons e rest ih =>
      intro acc h
      exact ih (insertFragmentEdge rid acc e) (edgesValid_insertFragmentEdge rid acc e h)

theorem edgeFold_all_dropped (rid : Int) (es : List FragEdge) :
    ∀ g1 : DiGraph,
      (∀ e ∈ es, ¬(has_node g1 e.source = true ∧ has_node g1 e.target = true)) →
      es.foldl (insertFragmentEdge rid) g1 = g1 := by
  induction es with
  | nil => intro g1 _; rfl
  | cons e rest ih =>
      intro g1 h
      have hstep : insertFragmentEdge rid g1 e = g1 := by
        unfold insertFragmentEdge
        rw [if_neg]
        rw [Bool.and_eq_true]
        exact h e (by simp)
      rw [List.foldl_cons, hstep]
      exact ih g1 (fun e2 he2 => h e2 (by simp [he2]))

theorem dedupRelsAux_idem (xs : List Relationship) :
    ∀ seen, dedupRelsAux (dedupRelsAux xs seen) seen = dedupRelsAux xs seen := by
  induction xs with
  | nil => intro seen; rfl
  | cons r rest ih =>
      intro seen
      by_cases h : relKey r ∈ seen
      · simp only [dedupRelsAux, if_pos h]
        exact ih seen
      · simp only [dedupRelsAux, if_neg h]
        exact congrArg (List.cons r) (ih (relKey r :: seen))

theorem recid_filterMap (l : List (String × NodeAttrs)) :
    l.filterMap (fun p => if p.2.recording_id = 0 then none else some p.2.recording_id)
      = (l.map (fun p => p.2.recording_id)).filter (fun r => r ≠ 0) := by
  induction l with
  | nil => rfl
  | cons a t ih => by_cases h : a.2.recording_id = 0 <;> simp [h, ih]

theorem filter_dedup_card (l : List Int) :
    (l.filter (fun r => r ≠ 0)).dedup.length = (l.toFinset.erase 0).card := by
  rw [← List.card_toFinset, List.toFinset_filter]
  congr 1
  rw [← Finset.filter_ne' l.toFinset 0]
  apply Finset.filter_congr
  intro x _
  simp

/-! ### Concrete fixtures -/

/-- A store with one node and no edges, for exercising the query error path. -/
def gC1 : DiGraph := ⟨[("n", ⟨"n", "CONCEPT", 1, 1⟩)], []⟩

/-- A relationship whose source carries a trailing space. -/
def rC2a : Relationship := ⟨"a ", "b", "t", 1, none⟩

/-- The same relationship with the source trimmed. -/
def rC2b : Relationship := ⟨"a", "b", "t", 1, none⟩

/-- A fragment with eleven nodes `q0` … `q10`, all of whose labels contain
`"q"`, and a single edge `q0 → q10`. -/
def fragQ : GraphData :=
  ⟨(List.range 11).map
      (fun i => ⟨"q" ++ toString i, "q" ++ toString i, "CONCEPT", 1, 1, none⟩),
   [⟨"q0", "q10", "discusses", 1, 1⟩], 1⟩

/-- The store built by merging `fragQ` into an empty store. -/
def gC3 : DiGraph := _add_to_networkx_graph ⟨[], []⟩ 1 fragQ

/-- A query entity whose text `"q"` matches every node of `gC3`. -/
def eQ : Entity := ⟨"q", "CONCEPT", 1, "openai"⟩

/-- A local-source entity with confidence 3/10. -/
def eC5a : Entity := ⟨"Budget", "CONCEPT", mkRat 3 10, "spacy"⟩

/-- A remote-source entity with the same key as `eC5a` and confidence 9/10. -/
def eC5b : Entity := ⟨"budget", "TOPIC", mkRat 9 10, "openai"⟩

/-- A local-source entity labelled `L1`. -/
def eC6a : Entity := ⟨"Foo", "L1", 1, "spacy"⟩

/-- A remote-source entity with the same key as `eC6a`, labelled `L2`. -/
def eC6b : Entity := ⟨"foo", "L2", 1, "openai"⟩

/-- A second local-source entity colliding with `eC6b`. -/
def eC6c : Entity := ⟨"FOO", "L3", 1, "spacy"⟩

/-- A store holding the single node `X` and no edges. -/
def gC7 : DiGraph := ⟨[("X", ⟨"X", "CONCEPT", 1, 1⟩)], []⟩

/-- A fragment with no nodes and one edge whose target `Y` is nowhere a
store node. -/
def gdC7 : GraphData := ⟨[], [⟨"X", "Y", "discusses", 1, 1⟩], 1⟩

/-- The fragment of the path-query scenario: nodes `A`, `B`, `C` and the
directed edges `A → B` and `B → C`. -/
def fragABC : GraphData :=
  ⟨[⟨"A", "A", "CONCEPT", 1, 1, none⟩, ⟨"B", "B", "CONCEPT", 1, 1, none⟩,
    ⟨"C", "C", "CONCEPT", 1, 1, none⟩],
   [⟨"A", "B", "discusses", 1, 1⟩, ⟨"B", "C", "discusses", 1, 1⟩], 1⟩

/-- The store containing exactly `A → B → C`. -/
def gABC : DiGraph := _add_to_networkx_graph ⟨[], []⟩ 1 fragABC

/-- A store with one node whose recording id is the placeholder `0`. -/
def gC9 : DiGraph := ⟨[("n", ⟨"n", "CONCEPT", 1, 0⟩)], []⟩

/-- Modelled from the claim's words, for comparison with the code: matched
nodes capped at 10 in scan order before path-finding, then at most 5 paths
in pair-enumeration order. -/
def find_paths_cap_first (g : DiGraph) (rns : List RelNode) : List (List String) :=
  (find_paths g (rns.take 10)).take 5

/-! ### Claim theorems -/

/-- C1, counterexample: on the exception path the returned dict has no
`graph_stats` key at all, while the claim demands the global node/edge
counts there too — on a store with one node the result would have to carry
`graph_stats = some (1, 0)`, but it carries none. -/
theorem C1_counterexample :
    (query_knowledge_graph (.error ()) gC1 none).graph_stats = none ∧
    (query_knowledge_graph (.error ()) gC1 none).graph_stats ≠
      some ⟨gC1.nodes.length, gC1.edges.length⟩ := by
  exact ⟨rfl, by decide⟩

/-- C1, amended: on the non-exception path every query result carries the
global (unfiltered) node and edge counts as `graph_stats`, unchanged by a
`recording_id` scope; the exception path returns the empty-shaped result,
which omits `graph_stats`; in either case the query returns rather than
raises. -/
theorem C1_graph_stats (qes : List Entity) (g : DiGraph) (rid : Option Int) :
    (query_knowledge_graph (.ok qes) g rid).graph_stats =
      some ⟨g.nodes.length, g.edges.length⟩ ∧
    (query_knowledge_graph (.ok qes) g rid).graph_stats =
      (query_knowledge_graph (.ok qes) g none).graph_stats ∧
    query_knowledge_graph (.error ()) g rid = ⟨[], [], [], none⟩ :=
  ⟨rfl, rfl, rfl⟩

/-- C2, counterexample: the relationship deduplicator does not trim its key
components — two relationships whose triples agree after lower-casing and
trimming (sources `"a "` and `"a"`) are kept as distinct edges. -/
theorem C2_counterexample :
    deduplicate_relationships [rC2a, rC2b] = [rC2a, rC2b] ∧
    pyStrip (pyLower rC2a.source) = pyStrip (pyLower rC2b.source) ∧
    pyStrip (pyLower rC2a.target) = pyStrip (pyLower rC2b.target) ∧
    pyStrip (pyLower rC2a.relationship) = pyStrip (pyLower rC2b.relationship) := by
  decide

/-- C2, amended: the relationship identity key lower-cases source and
target without trimming and takes the relationship type verbatim; the
deduplicator treats two relationships as the same edge exactly when these
keys agree (first occurrence wins), so directionality and type stay
distinct. -/
theorem C2_dedup_key (r1 r2 : Relationship) :
    deduplicate_relationships [r1, r2] =
      if relKey r1 = relKey r2 then [r1] else [r1, r2] := by
  by_cases h : relKey r1 = relKey r2
  · simp [deduplicate_relationships, dedupRelsAux, h]
  · have h2 : ¬relKey r2 = relKey r1 := fun hc => h hc.symm
    simp [deduplicate_relationships, dedupRelsAux, h, h2]

/-- C4: both deduplicators are idempotent — re-running either on its own
output is a no-op. -/
theorem C4_dedup_idempotent :
    (∀ es : List Entity,
      deduplicate_entities (deduplicate_entities es) = deduplicate_entities es) ∧
    (∀ rs : List Relationship,
      deduplicate_relationships (deduplicate_relationships rs) =
        deduplicate_relationships rs) := by
  constructor
  · intro es
    have h1 : deduplicate_entities es = (es.foldl upsertEntity []).map Prod.snd := rfl
    rw [h1]
    have hval : ∀ p ∈ es.foldl upsertEntity [], p.1 = entKey p.2 :=
      foldl_upsert_key_inv es [] (by simp)
    have hnd : ((es.foldl upsertEntity []).map Prod.fst).Nodup :=
      foldl_upsert_nodup es [] (by simp)
    have hkeys : ((es.foldl upsertEntity []).map Prod.snd).map entKey =
        (es.foldl upsertEntity []).map Prod.fst := by
      rw [List.map_map]
      exact List.map_congr_left (fun p hp => (hval p hp).symm)
    have hnd2 : (((es.foldl upsertEntity []).map Prod.snd).map entKey).Nodup := by
      rw [hkeys]; exact hnd
    show deduplicate_entities ((es.foldl upsertEntity []).map Prod.snd) =
      (es.foldl upsertEntity []).map Prod.snd
    unfold deduplicate_entities
    rw [foldl_upsert_all_fresh _ [] hnd2 (by simp)]
    simp [List.map_map, Function.comp]
  · intro rs
    exact dedupRelsAux_idem rs []

/-- C5: entity deduplication merges the confidences of two same-key
entities by maximum, in either arrival order. -/
theorem C5_confidence_max (e1 e2 : Entity) (h : entKey e1 = entKey e2) :
    (deduplicate_entities [e1, e2]).map Entity.confidence =
      [max e1.confidence e2.confidence] ∧
    (deduplicate_entities [e2, e1]).map Entity.confidence =
      [max e1.confidence e2.confidence] := by
  constructor
  · simp [deduplicate_entities, upsertEntity, h, mergeEntity]
  · simp [deduplicate_entities, upsertEntity, h.symm, mergeEntity, max_comm]

/-- C5, witness at confidences 3/10 and 9/10. -/
theorem C5_confidence_max_witness :
    (deduplicate_entities [eC5a, eC5b]).map Entity.confidence =
      [max eC5a.confidence eC5b.confidence] ∧
    (deduplicate_entities [eC5b, eC5a]).map Entity.confidence =
      [max eC5a.confidence eC5b.confidence] :=
  C5_confidence_max eC5a eC5b (by decide)

/-- C6: for a local-source entity and a remote-source entity with the same
key, either arrival order leaves the remote label in the deduplicated
result; and a colliding entity whose source is not the remote tag never
overwrites the existing label. -/
theorem C6_remote_labels (e1 e2 : Entity) (hk : entKey e1 = entKey e2)
    (h1 : e1.source = "spacy") (h2 : e2.source = "openai") :
    (deduplicate_entities [e1, e2]).map Entity.label = [e2.label] ∧
    (deduplicate_entities [e2, e1]).map Entity.label = [e2.label] ∧
    (∀ ex inc : Entity, entKey inc = entKey ex → inc.source ≠ "openai" →
      (deduplicate_entities [ex, inc]).map Entity.label = [ex.label]) := by
  refine ⟨?_, ?_, ?_⟩
  · simp [deduplicate_entities, upsertEntity, hk, mergeEntity, h2]
  · have h1b : e1.source ≠ "openai" := by rw [h1]; decide
    simp [deduplicate_entities, upsertEntity, hk.symm, mergeEntity, h1b]
  · intro ex inc hki hsrc
    simp [deduplicate_entities, upsertEntity, hki.symm, mergeEntity, hsrc]

/-- C6, witness on the `"Foo"`/`"foo"` example of the spec, with the
no-overwrite part instantiated at a colliding local entity. -/
theorem C6_remote_labels_witness :
    (deduplicate_entities [eC6a, eC6b]).map Entity.label = [eC6b.label] ∧
    (deduplicate_entities [eC6b, eC6a]).map Entity.label = [eC6b.label] ∧
    (deduplicate_entities [eC6b, eC6c]).map Entity.label = [eC6b.label] :=
  ⟨(C6_remote_labels eC6a eC6b (by decide) rfl rfl).1,
   (C6_remote_labels eC6a eC6b (by decide) rfl rfl).2.1,
   (C6_remote_labels eC6a eC6b (by decide) rfl rfl).2.2 eC6b eC6c (by decide) (by decide)⟩

/-- C3, counterexample: on a store where eleven nodes match the query, the
engine emits a path that ends in the eleventh matched node `q10`, which lies
outside the 10-cap — so path-finding is not restricted to the capped
matched nodes; under the claim's cap-before-path-finding semantics no path
would be emitted at all. -/
theorem C3_counterexample :
    (query_knowledge_graph (.ok [eQ]) gC3 none).paths = [["q0", "q10"]] ∧
    ((relevant_nodes_full gC3 none [pyLower eQ.text]).take 10).all
      (fun n => n.id ≠ "q10") = true ∧
    find_paths_cap_first gC3 (relevant_nodes_full gC3 none [pyLower eQ.text]) = [] := by
  decide

/-- C3, amended: the returned matched nodes are capped at 10 in scan order
and the emitted paths at 5 in pair-enumeration order, but shortest-path
lookups range over the unordered pairs of all matched nodes (uncapped),
with missing paths silently skipped. -/
theorem C3_cap_after_paths (qes : List Entity) (g : DiGraph) (rid : Option Int) :
    (query_knowledge_graph (.ok qes) g rid).relevant_nodes.length ≤ 10 ∧
    (query_knowledge_graph (.ok qes) g rid).paths.length ≤ 5 ∧
    (∀ p ∈ (query_knowledge_graph (.ok qes) g rid).paths,
      ∃ ab ∈ orderedPairs
          (relevant_nodes_full g rid (qes.map (fun e => pyLower e.text))),
        shortest_path g ab.1.id ab.2.id = some p) := by
  refine ⟨?_, ?_, ?_⟩
  · show ((relevant_nodes_full g rid (qes.map (fun e => pyLower e.text))).take 10).length ≤ 10
    exact List.length_take_le ..
  · show ((find_paths g (relevant_nodes_full g rid
      (qes.map (fun e => pyLower e.text)))).take 5).length ≤ 5
    exact List.length_take_le ..
  · intro p hp
    have hp2 : p ∈ find_paths g (relevant_nodes_full g rid
        (qes.map (fun e => pyLower e.text))) :=
      List.mem_of_mem_take hp
    unfold find_paths at hp2
    split at hp2
    · rw [List.mem_filterMap] at hp2
      obtain ⟨ab, hab, habp⟩ := hp2
      exact ⟨ab, hab, habp⟩
    · cases hp2

/-- C3, witness: on the eleven-node store the emitted path `["q0", "q10"]`
arises from an unordered pair of (uncapped) matched nodes. -/
theorem C3_cap_after_paths_witness :
    (query_knowledge_graph (.ok [eQ]) gC3 none).relevant_nodes.length ≤ 10 ∧
    ∃ ab ∈ orderedPairs
        (relevant_nodes_full gC3 none ([eQ].map (fun e => pyLower e.text))),
      shortest_path gC3 ab.1.id ab.2.id = some ["q0", "q10"] :=
  ⟨(C3_cap_after_paths [eQ] gC3 none).1,
   (C3_cap_after_paths [eQ] gC3 none).2.2 ["q0", "q10"] (by decide)⟩

/-- C7: merging a fragment preserves the invariant that every store edge
references only existing store nodes, and a fragment edge whose endpoints
are not both store nodes (after the fragment's own nodes were added) is
dropped, leaving the edge count unchanged. -/
theorem C7_edge_drop (g : DiGraph) (rid : Int) (gd : GraphData)
    (hg : edgesValid g) :
    edgesValid (_add_to_networkx_graph g rid gd) ∧
    ((∀ e ∈ gd.edges,
        ¬(has_node (addFragmentNodes g rid gd.nodes) e.source = true ∧
          has_node (addFragmentNodes g rid gd.nodes) e.target = true)) →
      (_add_to_networkx_graph g rid gd).edges.length = g.edges.length) := by
  constructor
  · exact edgesValid_edgeFold rid gd.edges _
      (edgesValid_addFragmentNodes rid gd.nodes g hg)
  · intro hdrop
    show (gd.edges.foldl (insertFragmentEdge rid) (addFragmentNodes g rid gd.nodes)).edges.length
      = g.edges.length
    rw [edgeFold_all_dropped rid gd.edges _ hdrop, addFragmentNodes_edges]

/-- C7, witness: merging a fragment whose single edge targets the absent
node `Y` into a one-node store keeps the invariant and inserts no edge. -/
theorem C7_edge_drop_witness :
    edgesValid (_add_to_networkx_graph gC7 1 gdC7) ∧
    (_add_to_networkx_graph gC7 1 gdC7).edges.length = gC7.edges.length :=
  ⟨(C7_edge_drop gC7 1 gdC7 (by unfold edgesValid; decide)).1,
   (C7_edge_drop gC7 1 gdC7 (by unfold edgesValid; decide)).2 (by decide)⟩

/-- C8: in the store containing exactly `A`, `B`, `C` with directed edges
`A → B` and `B → C` and no direct `A → C` edge, the shortest path from `A`
to `C` is `[A, B, C]`, the lookup from `C` to `A` yields no path, and the
query engine's path loop silently skips such a path-less pair. -/
theorem C8_shortest_path_directed :
    shortest_path gABC "A" "C" = some ["A", "B", "C"] ∧
    shortest_path gABC "C" "A" = none ∧
    has_edge gABC "A" "C" = false ∧
    find_paths gABC [⟨"C", "C", "CONCEPT", 1⟩, ⟨"A", "A", "CONCEPT", 1⟩] = [] := by
  decide

/-- C9, counterexample: a node whose recording-id attribute is the
placeholder `0` contributes nothing to `recordings_covered` — on a store
whose only node has recording id `0` the summary reports `0` recordings
covered although the node set holds one distinct recording-id value. -/
theorem C9_counterexample :
    (get_graph_summary gC9 none).recordings_covered = 0 ∧
    ((scopedNodes gC9 none).map (fun p => p.2.recording_id)).dedup.length = 1 := by
  decide

/-- C9, amended: `recordings_covered` is the number of distinct recording-id
values among the (filtered) node set excluding the falsy placeholder `0` —
the cardinality of the set of node recording ids with `0` erased. -/
theorem C9_recordings_covered (g : DiGraph) (rid : Option Int) :
    (get_graph_summary g rid).recordings_covered =
      (((scopedNodes g rid).map (fun p => p.2.recording_id)).toFinset.erase 0).card := by
  have h0 : (get_graph_summary g rid).recordings_covered =
      ((scopedNodes g rid).filterMap
        (fun p => if p.2.recording_id = 0 then none else some p.2.recording_id)).dedup.length := rfl
  rw [h0, recid_filterMap, filter_dedup_card]

/-- C10: the integer `0` is falsy in Python, so a recording scope of `0`
disables filtering entirely — querying or summarising with recording id `0`
coincides with the unscoped call on the whole store. -/
theorem C10_falsy_recording_id (extracted : Except Unit (List Entity)) (g : DiGraph) :
    query_knowledge_graph extracted g (some 0) = query_knowledge_graph extracted g none ∧
    get_graph_summary g (some 0) = get_graph_summary g none := by
  constructor
  · cases extracted with
    | error e => rfl
    | ok qes => rfl
  · rfl

end GraphRAGService
